import Mathlib

/-!
Verification of the PUPQC student-chatbot backend.

This file gives a shallow embedding, in Lean 4, of the core logic of the
backend (files `backend/rag_system.py` and `backend/main.py`): the text
chunker, the lexical retriever, the small-talk gate of the query pipeline,
the regex-chain response cleaners, the direct-chat relay operations and the
PDF ingestion pipeline.  Python strings are modelled as `List Char` (ASCII
text); the relational store is modelled as in-memory lists of records; the
SQLAlchemy session's commit is modelled as an atomic write; the language
model collaborator is an explicit function argument returning `Except`.

Theorems about the embedded definitions settle the claims C1..C10 of the
specification.
-/

namespace PUPQC

/-! ## Python string primitives -/

/-- The ASCII whitespace characters recognised by Python's `str.strip()`,
`str.split()` and the regex class `\s`. -/
def isSpace (c : Char) : Bool :=
  c = ' ' || c = '\t' || c = '\n' || c = '\r' || c = '\x0b' || c = '\x0c'

/-- Python `str.lower()` (ASCII letters). -/
def lower (s : List Char) : List Char :=
  s.map Char.toLower

/-- Python `str.strip()`: remove leading and trailing whitespace. -/
def strip (s : List Char) : List Char :=
  ((s.dropWhile isSpace).reverse.dropWhile isSpace).reverse

/-- `text.strip()` is truthy in Python: the text holds a non-whitespace
character. -/
def hasNonWS (s : List Char) : Bool :=
  s.any (fun c => !(isSpace c))

/-- Helper for `splitWS`: accumulate the current token (reversed). -/
def splitWSAux : List Char → List Char → List (List Char)
  | [], acc => if acc.isEmpty then [] else [acc.reverse]
  | c :: rest, acc =>
    if isSpace c then
      if acc.isEmpty then splitWSAux rest [] else acc.reverse :: splitWSAux rest []
    else splitWSAux rest (c :: acc)

/-- Python `str.split()` with no separator: split on whitespace runs,
dropping empty tokens. -/
def splitWS (s : List Char) : List (List Char) :=
  splitWSAux s []

/-- Python `str.split(sep)` for a one-character separator: empty pieces are
kept. -/
def splitChar (sep : Char) : List Char → List (List Char)
  | [] => [[]]
  | c :: rest =>
    if c = sep then [] :: splitChar sep rest
    else
      match splitChar sep rest with
      | [] => [[c]]
      | p :: ps => (c :: p) :: ps

/-- Python substring membership `needle in hay`. -/
def containsSub (hay needle : List Char) : Bool :=
  match hay with
  | [] => needle.isEmpty
  | _ :: rest => needle.isPrefixOf hay || containsSub rest needle

/-- The text after the first occurrence of `sep` in `s`, or `none` when `sep`
does not occur: `s.split(sep)[1:]` viewed from its start. -/
def afterFirst (sep : List Char) : List Char → Option (List Char)
  | [] => if sep.isEmpty then some [] else none
  | c :: rest =>
    if sep.isPrefixOf (c :: rest) then some ((c :: rest).drop sep.length)
    else afterFirst sep rest

/-- The text before the first occurrence of `sep` in `s` (all of `s` when
`sep` does not occur): `s.split(sep)[0]`. -/
def beforeFirst (sep : List Char) : List Char → List Char
  | [] => []
  | c :: rest =>
    if sep.isPrefixOf (c :: rest) then []
    else c :: beforeFirst sep rest

/-- The numeric value of a list of decimal digits. -/
def digitsToNat (ds : List Char) : Nat :=
  ds.foldl (fun n c => 10 * n + (c.toNat - 48)) 0

/-- The digit part of a Python decimal literal: at least one digit, with
single underscores allowed between digits (`int("1_0") = 10`; leading,
trailing or doubled underscores are rejected). -/
def pyDigits : List Char → Bool
  | [] => false
  | [c] => c.isDigit
  | c :: '_' :: rest => c.isDigit && pyDigits rest
  | c :: rest => c.isDigit && pyDigits rest

/-- Python `int(s)` on decimal text: optional surrounding whitespace, an
optional sign, then a digit group (underscore separators allowed); `none`
when `int` would raise `ValueError`. -/
def pyInt? (s : List Char) : Option Int :=
  let t := strip s
  let signed : Int × List Char :=
    match t with
    | '-' :: r => (-1, r)
    | '+' :: r => (1, r)
    | r => (1, r)
  if pyDigits signed.2 then
    some (signed.1 * (digitsToNat (signed.2.filter (fun c => !(c = '_'))) : Int))
  else none

/-! ## The chunker (`SimplifiedRAGSystem._create_text_chunks`) -/

/-- One chunk as produced by `_create_text_chunks`: the dict
`{'text': ..., 'page': ..., 'filename': ...}`. -/
structure ChunkOut where
  text : List Char
  page : Int
  filename : List Char
deriving DecidableEq, Repr

/-- The page-marker sentinel tested by
`line.strip().startswith("--- Page ")`. -/
def pageMarker : List Char :=
  ( "--- Page ").data

/-- `int(line.split("Page ")[1].split(" ---")[0])`: `none` when the Python
expression raises (`IndexError` or `ValueError`), in which case the caller
falls back to incrementing the previous page number. -/
def parsePageNum (line : List Char) : Option Int :=
  match afterFirst ( "Page ").data line with
  | none => none
  | some rest => pyInt? (beforeFirst ( " ---").data (beforeFirst ( "Page ").data rest))

/-- The loop state of `_create_text_chunks`: produced chunks, the growing
buffer `current_chunk` and `current_page`. -/
structure ChunkState where
  chunks : List ChunkOut
  current_chunk : List Char
  current_page : Int
deriving DecidableEq, Repr

/-- One iteration of the `for line in lines` loop of `_create_text_chunks`.
At a page marker the buffer is flushed and reset only when its stripped
text is non-empty (both statements sit inside `if current_chunk.strip():`);
a whitespace-only buffer survives the marker. -/
def chunkLine (filename : List Char) (chunk_size : Nat) (st : ChunkState)
    (line : List Char) : ChunkState :=
  if pageMarker.isPrefixOf (strip line) then
    let flushed : List ChunkOut × List Char :=
      if hasNonWS st.current_chunk then
        (st.chunks ++ [⟨strip st.current_chunk, st.current_page, filename⟩], [])
      else (st.chunks, st.current_chunk)
    let page' :=
      match parsePageNum line with
      | some n => n
      | none => st.current_page + 1
    ⟨flushed.1, flushed.2, page'⟩
  else
    let cur' := st.current_chunk ++ line ++ [ '\n']
    if chunk_size < cur'.length then
      ⟨st.chunks ++ [⟨strip cur', st.current_page, filename⟩], [], st.current_page⟩
    else
      ⟨st.chunks, cur', st.current_page⟩

/-- `SimplifiedRAGSystem._create_text_chunks(text_content, filename)` with
the configured `settings.chunk_size` passed explicitly (default 500). -/
def create_text_chunks (text_content : List Char) (filename : List Char)
    (chunk_size : Nat) : List ChunkOut :=
  let lines := splitChar '\n' text_content
  let st := lines.foldl (chunkLine filename chunk_size) ⟨[], [], 1⟩
  if hasNonWS st.current_chunk then
    st.chunks ++ [⟨strip st.current_chunk, st.current_page, filename⟩]
  else st.chunks

/-! ## Regex substitution (`re.sub`) for the concrete cleanup patterns

A matcher takes the text at the current position and returns the number of
characters matched together with the remaining text, or `none`.  Every
pattern used by the cleanup code matches at least one character, so
`re.sub(pattern, repl, s)` is the left-to-right scan `gsub`: at each
position try the matcher, on success emit the replacement and resume after
the match, otherwise keep the character.  Recursion is by fuel (one unit
per consumed character) so the definitions compute by kernel reduction. -/

/-- A regex-fragment matcher: consumed length and remaining text. -/
abbrev Matcher := List Char → Option (Nat × List Char)

/-- Match a literal, case sensitively. -/
def mlit (lit : List Char) : Matcher := fun s =>
  if lit.isPrefixOf s then some (lit.length, s.drop lit.length) else none

/-- Match a literal up to ASCII case (the pattern compiled with
`re.IGNORECASE`; the literal is given lower-case). -/
def mlitCI (lit : List Char) : Matcher := fun s =>
  if lit.isPrefixOf (lower s) then some (lit.length, s.drop lit.length) else none

/-- Sequencing of two fragments. -/
def mseq (a b : Matcher) : Matcher := fun s =>
  match a s with
  | some (n, r) =>
    match b r with
    | some (k, r2) => some (n + k, r2)
    | none => none
  | none => none

/-- A greedy optional fragment `(...)?`. -/
def mopt (a : Matcher) : Matcher := fun s =>
  match a s with
  | some nr => some nr
  | none => some (0, s)

/-- A single character satisfying `p`. -/
def mchar (p : Char → Bool) : Matcher := fun s =>
  match s with
  | c :: r => if p c then some (1, r) else none
  | [] => none

/-- `\s+` (greedy). -/
def mws1 : Matcher := fun s =>
  let n := (s.takeWhile isSpace).length
  if n = 0 then none else some (n, s.drop n)

/-- `\s*` (greedy). -/
def mwsM : Matcher := fun s =>
  let n := (s.takeWhile isSpace).length
  some (n, s.drop n)

/-- `\d+` (greedy). -/
def mdigits1 : Matcher := fun s =>
  let n := (s.takeWhile Char.isDigit).length
  if n = 0 then none else some (n, s.drop n)

/-- Greedy Kleene star of a fragment that consumes at least one character,
with explicit fuel. -/
def mstar (a : Matcher) : Nat → Matcher
  | 0 => fun s => some (0, s)
  | fuel + 1 => fun s =>
    match a s with
    | some (n + 1, r) =>
      match mstar a fuel r with
      | some (k, r2) => some (n + 1 + k, r2)
      | none => some (n + 1, r)
    | _ => some (0, s)

/-- Project a matcher to the consumed length, as `gsub` consumes it. -/
def toN (m : Matcher) : List Char → Option Nat := fun s =>
  (m s).map (fun nr => nr.1)

/-- The fuelled scan behind `gsub`. -/
def gsubF (m : List Char → Option Nat) (repl : List Char) : Nat → List Char → List Char
  | 0, s => s
  | _ + 1, [] => []
  | fuel + 1, c :: rest =>
    match m (c :: rest) with
    | some (n + 1) => repl ++ gsubF m repl fuel ((c :: rest).drop (n + 1))
    | _ => c :: gsubF m repl fuel rest

/-- `re.sub(pattern, repl, s)` for a pattern that never matches the empty
string: replace every non-overlapping leftmost match. -/
def gsub (m : List Char → Option Nat) (repl : List Char) (s : List Char) : List Char :=
  gsubF m repl s.length s

/-! ### The patterns of `SimplifiedRAGSystem._clean_response` -/

/-- `page\s+\d+(?:[-–]\d+)?` (IGNORECASE). -/
def mPageRef : Matcher :=
  mseq (mlitCI ( "page").data)
    (mseq mws1 (mseq mdigits1 (mopt (mseq (mchar (fun c => c = '-' || c = '–')) mdigits1))))

/-- `(?:,\s*\d+)*`, fuelled from the remaining length. -/
def mNumList : Matcher := fun s =>
  mstar (mseq (mchar (fun c => c = ',')) (mseq mwsM mdigits1)) s.length s

/-- `(?:,?\s*and\s*\d+)?` (IGNORECASE). -/
def mAndClause : Matcher :=
  mopt (mseq (mopt (mchar (fun c => c = ',')))
    (mseq mwsM (mseq (mlitCI ( "and").data) (mseq mwsM mdigits1))))

/-- `pages?\s+\d+(?:,\s*\d+)*(?:,?\s*and\s*\d+)?` (IGNORECASE). -/
def mPagesRef : Matcher :=
  mseq (mlitCI ( "page").data)
    (mseq (mopt (mchar (fun c => c = 's' || c = 'S')))
      (mseq mws1 (mseq mdigits1 (mseq mNumList mAndClause))))

/-- `document\s+\d+` (IGNORECASE). -/
def mDocRef : Matcher :=
  mseq (mlitCI ( "document").data) (mseq mws1 mdigits1)

/-- `section\s+\d+(?:\.\d+)*` (IGNORECASE). -/
def mSecRef : Matcher :=
  mseq (mlitCI ( "section").data)
    (mseq mws1 (mseq mdigits1 (fun s => mstar (mseq (mchar (fun c => c = '.')) mdigits1) s.length s)))

/-- `\*\s*`. -/
def mBullet : Matcher :=
  mseq (mchar (fun c => c = '*')) mwsM

/-- The first four rewrites of `_clean_response`: strip `page N[-M]`,
`pages N, M and K`, `document N` and `section N[.N]` references. -/
def applyRefRewrites (s : List Char) : List Char :=
  gsub (toN mSecRef) []
    (gsub (toN mDocRef) []
      (gsub (toN mPagesRef) []
        (gsub (toN mPageRef) [] s)))

/-- `SimplifiedRAGSystem._clean_response(answer)`: the ordered rewrite chain
(strip page/pages/document/section references, `* ` to `• `, collapse
whitespace, trim). -/
def clean_response (answer : List Char) : List Char :=
  let a := applyRefRewrites answer
  let b := gsub (toN mBullet) ( "• ").data a
  strip (gsub (toN mws1) ( " ").data b)

/-! ### The patterns of `clean_bot_response` (main.py) -/

/-- Python's `\w` on ASCII text: letters, digits and underscore. -/
def isWordChar (c : Char) : Bool :=
  c.isAlphanum || c = '_'

/-- `\s*of\s*[^.]*document[^.]*\.?` (IGNORECASE): after backtracking the
greedy `[^.]*document[^.]*\.?` consumes the whole run of non-dot characters
(which must contain `document`) plus an optional closing dot. -/
def mOfDocTail : Matcher := fun s =>
  let run := s.takeWhile (fun c => !(c = '.'))
  if containsSub (lower run) ( "document").data then
    match s.drop run.length with
    | '.' :: r => some (run.length + 1, r)
    | rest => some (run.length, rest)
  else none

/-- `pages?\s+\d+(?:,\s*\d+)*(?:,?\s*and\s*\d+)?\s*of\s*[^.]*document[^.]*\.?`
(IGNORECASE). -/
def mPagesOfDoc : Matcher :=
  mseq mPagesRef (mseq mwsM (mseq (mlitCI ( "of").data) (mseq mwsM mOfDocTail)))

/-- The lazy `.*?from` fragment: scan forward (never across a newline, since
`.` does not match `\n`) to the first position where `from` matches. -/
def mLazyFrom : Nat → Matcher
  | 0 => fun _ => none
  | fuel + 1 => fun s =>
    match mlitCI ( "from").data s with
    | some nr => some nr
    | none =>
      match s with
      | c :: r =>
        if c = '\n' then none
        else
          match mLazyFrom fuel r with
          | some (k, r2) => some (1 + k, r2)
          | none => none
      | [] => none

/-- `[^,]*,?\s*`: the greedy run of non-commas, an optional comma, then
whitespace. -/
def mCommaTail : Matcher := fun s =>
  let run := s.takeWhile (fun c => !(c = ','))
  match s.drop run.length with
  | ',' :: r =>
    let ws := (r.takeWhile isSpace).length
    some (run.length + 1 + ws, r.drop ws)
  | rest => some (run.length, rest)

/-- `Based on.*?from[^,]*,?\s*` (IGNORECASE). -/
def mBasedOn : Matcher :=
  mseq (mlitCI ( "based on").data) (mseq (fun s => mLazyFrom s.length s) mCommaTail)

/-- `\.pdf\b` (IGNORECASE): the literal `.pdf` not followed by a word
character. -/
def mPdfRef : Matcher := fun s =>
  match mlitCI ( ".pdf").data s with
  | some (n, r) =>
    match r with
    | c :: _ => if isWordChar c then none else some (n, r)
    | [] => some (n, r)
  | none => none

/-- `according to the document\s*` (IGNORECASE). -/
def mAccording : Matcher :=
  mseq (mlitCI ( "according to the document").data) mwsM

/-- `\(\s*\)`. -/
def mEmptyParens : Matcher :=
  mseq (mchar (fun c => c = '(')) (mseq mwsM (mchar (fun c => c = ')')))

/-- `&\s*\d+`. -/
def mAmpRef : Matcher :=
  mseq (mchar (fun c => c = '&')) (mseq mwsM mdigits1)

/-- Python `str.replace(pat, repl)` for a non-empty pattern. -/
def replaceAll (pat repl s : List Char) : List Char :=
  gsub (toN (mlit pat)) repl s

/-- `clean_bot_response(response_text)` of `main.py`: the helper both chat
endpoints run over the RAG answer. -/
def clean_bot_response (response_text : List Char) : List Char :=
  let c := gsub (toN mPagesOfDoc) [] response_text
  let c := gsub (toN mBasedOn) [] c
  let c := gsub (toN mPdfRef) [] c
  let c := gsub (toN mAccording) [] c
  let c := gsub (toN mBullet) ( "• ").data c
  let c := gsub (toN mEmptyParens) [] c
  let c := gsub (toN mAmpRef) [] c
  let c := gsub (toN mws1) ( " ").data c
  let c := replaceAll
    ( "I don't have specific information about that in my current knowledge base").data
    ( "I don't have details about that specific topic right now").data c
  strip c

/-! ## The data model (models.py), as in-memory records -/

/-- `ChatbotType`: only `STUDENT` exists in the current code. -/
inductive ChatbotType where
  | student
deriving DecidableEq, Repr

/-- `DocumentStatus`. -/
inductive DocumentStatus where
  | uploading
  | processing
  | ready
  | failed
deriving DecidableEq, Repr

/-- A `Chatbot` row (the fields the core reads). -/
structure ChatbotR where
  id : Nat
  type : ChatbotType
deriving DecidableEq, Repr

/-- A `Document` row (the fields the core reads and writes). -/
structure DocumentR where
  id : Nat
  chatbot_id : Nat
  filename : List Char
  original_filename : List Char
  file_size : Nat
  status : DocumentStatus
  page_count : Option Nat
  chunk_count : Option Nat
  processing_error : Option (List Char)
  processed_at : Option Nat
deriving DecidableEq, Repr

/-- A `DocumentChunk` row. -/
structure DocumentChunkR where
  document_id : Nat
  chunk_index : Nat
  text_content : List Char
  page_number : Int
  embedding_id : List Char
deriving DecidableEq, Repr

/-- The document store: the tables the question-answering path reads, in
store iteration order, plus the id counter the store assigns to the next
`Document` row. -/
structure Db where
  chatbots : List ChatbotR
  documents : List DocumentR
  document_chunks : List DocumentChunkR
  next_document_id : Nat
deriving DecidableEq, Repr

/-- `db.query(Document).filter(Document.id == did).first()`. -/
def findDoc (db : Db) (did : Nat) : Option DocumentR :=
  db.documents.find? (fun d => d.id == did)

/-- `db.query(Chatbot).filter(Chatbot.type == ChatbotType.STUDENT).first()`. -/
def findStudentBot (db : Db) : Option ChatbotR :=
  db.chatbots.find? (fun b => b.type == ChatbotType.student)

/-! ## The lexical retriever (`SimplifiedRAGSystem._search_documents`) -/

/-- One scored result, the dict built inside `_search_documents`. -/
structure ScoredChunk where
  score : Nat
  text : List Char
  page : Int
  document_id : Nat
  filename : List Char
deriving DecidableEq, Repr

/-- The join
`db.query(DocumentChunk).join(Document).filter(chatbot_id == bot, status == READY)`:
each chunk paired with its (ready, in-scope) document, in chunk-store order. -/
def readyChunks (db : Db) (bot : ChatbotR) : List (DocumentChunkR × DocumentR) :=
  db.document_chunks.filterMap (fun c =>
    match findDoc db c.document_id with
    | some d =>
      if d.chatbot_id == bot.id && d.status == DocumentStatus.ready then some (c, d)
      else none
    | none => none)

/-- The score of one chunk:
`sum(1 for term in search_terms if term in text_lower)`. -/
def chunkScore (terms : List (List Char)) (text : List Char) : Nat :=
  terms.countP (fun t => containsSub (lower text) t)

/-- The scored, score-positive chunks in store order (the loop filling
`scored_chunks`). -/
def scoredChunks (db : Db) (bot : ChatbotR) (terms : List (List Char)) : List ScoredChunk :=
  (readyChunks db bot).filterMap (fun cd =>
    let score := chunkScore terms cd.1.text_content
    if 0 < score then
      some ⟨score, cd.1.text_content, cd.1.page_number, cd.1.document_id, cd.2.original_filename⟩
    else none)

/-- Insert into a descending-by-score list, after every element of not
smaller score: the insertion step of a stable descending sort. -/
def insertDesc (x : ScoredChunk) : List ScoredChunk → List ScoredChunk
  | [] => [x]
  | y :: ys => if x.score < y.score then y :: insertDesc x ys else x :: y :: ys

/-- Stable sort by score, descending:
`scored_chunks.sort(key=lambda x: x['score'], reverse=True)` (Python's sort
is stable, so any stable sort gives the identical list). -/
def sortDesc : List ScoredChunk → List ScoredChunk
  | [] => []
  | x :: xs => insertDesc x (sortDesc xs)

/-- `SimplifiedRAGSystem._search_documents(question, limit)` (default limit
5): keyword scoring of ready chunks, stable descending sort, truncation. -/
def search_documents (db : Db) (question : List Char) (limit : Nat) : List ScoredChunk :=
  match findStudentBot db with
  | none => []
  | some bot =>
    let terms := splitWS (lower question)
    (sortDesc (scoredChunks db bot terms)).take limit

/-- The algorithm as claim C2 words it, with the question's terms taken as a
set of distinct terms.  Spec-side definition, for comparison with
`search_documents` (which counts repeated question tokens once per
occurrence). -/
def search_documents_distinct (db : Db) (question : List Char) (limit : Nat) : List ScoredChunk :=
  match findStudentBot db with
  | none => []
  | some bot =>
    let terms := (splitWS (lower question)).dedup
    (sortDesc (scoredChunks db bot terms)).take limit

/-! ## The query pipeline (`SimplifiedRAGSystem.query_student_bot`) -/

/-- One entry of the `sources` list built for the answer (the dict with keys
`page`, `filename`, `chunk_id`; the code stores the chunk's `document_id`
under the key `chunk_id`). -/
structure SourceRef where
  page : Int
  filename : List Char
  chunk_id : Nat
deriving DecidableEq, Repr

/-- The dict returned by `query_student_bot` (the `error` key is present
only in the exception branch). -/
structure QueryOutcome where
  answer : List Char
  sources : List SourceRef
  response_time_ms : Nat
  session_id : Option (List Char)
  error : Option (List Char)
deriving DecidableEq, Repr

/-- The `greetings` phrase list. -/
def greetings : List (List Char) :=
  [( "hello").data, ( "hi").data, ( "hey").data, ( "good morning").data,
   ( "good afternoon").data, ( "good evening").data, ( "howdy").data]

/-- The `thanks_words` phrase list. -/
def thanks_words : List (List Char) :=
  [( "thank").data, ( "thanks").data, ( "appreciate").data, ( "grateful").data]

/-- The `goodbye_words` phrase list. -/
def goodbye_words : List (List Char) :=
  [( "bye").data, ( "goodbye").data, ( "see you").data, ( "farewell").data, ( "take care").data]

/-- The `status_questions` phrase list. -/
def status_questions : List (List Char) :=
  [( "how are you").data, ( "how do you do").data, ( "what are you").data, ( "who are you").data]

/-- The canned greeting answer. -/
def greetingAnswer : List Char :=
  ( "Hello! I'm here to help you with your academic questions. You can ask me about courses, policies, deadlines, graduation requirements, and more. What would you like to know?").data

/-- The canned thanks answer. -/
def thanksAnswer : List Char :=
  ( "You're very welcome! I'm glad I could help. Feel free to ask if you have any other questions about your studies or academic matters.").data

/-- The canned goodbye answer. -/
def goodbyeAnswer : List Char :=
  ( "Goodbye! Have a great day with your studies. Remember, I'm here whenever you need help with academic questions.").data

/-- The canned identity/status answer. -/
def identityAnswer : List Char :=
  ( "I'm your PUPQC student support assistant! I'm still learning and growing to help students better. I can assist you with academic questions using information from official documents. What can I help you with today?").data

/-- The canned answer when no chunk matches the question. -/
def stillLearningAnswer : List Char :=
  ( "I'm still learning about that topic! For the most current information, you might want to check the PUPQC student portal, visit the registrar's office, or ask your academic advisor. Is there something else about student life or academics I can help with?").data

/-- The canned answer of the exception handler of `query_student_bot`. -/
def troubleAnswer : List Char :=
  ( "I'm having trouble processing that right now - let me try again! You could also try rephrasing your question or asking about something else related to PUPQC academics.").data

/-- The four small-talk phrase sets in the order the code tests them. -/
inductive SmallTalk where
  | greeting
  | thanks
  | farewell
  | identity
deriving DecidableEq, Repr

/-- The canned answer of each small-talk category. -/
def cannedAnswer : SmallTalk → List Char
  | SmallTalk.greeting => greetingAnswer
  | SmallTalk.thanks => thanksAnswer
  | SmallTalk.farewell => goodbyeAnswer
  | SmallTalk.identity => identityAnswer

/-- The small-talk cascade of `query_student_bot`: substring containment of
any phrase of a set in the lower-cased, stripped question; the sets tested
in order greeting, thanks, farewell, identity, first match winning. -/
def smallTalkCategory (question : List Char) : Option SmallTalk :=
  let ql := strip (lower question)
  if greetings.any (fun g => containsSub ql g) then some SmallTalk.greeting
  else if thanks_words.any (fun w => containsSub ql w) then some SmallTalk.thanks
  else if goodbye_words.any (fun w => containsSub ql w) then some SmallTalk.farewell
  else if status_questions.any (fun p => containsSub ql p) then some SmallTalk.identity
  else none

/-- `SimplifiedRAGSystem._build_context(chunks)`. -/
def build_context (chunks : List ScoredChunk) : List Char :=
  List.intercalate ( "\n---\n").data
    (chunks.map (fun c =>
      ( "[Page ").data ++ (toString c.page).data ++ ( " - ").data ++ c.filename
        ++ ( "]\n").data ++ c.text ++ ( "\n").data))

/-- The grounded prompt sent to the model collaborator. -/
def buildPrompt (context question : List Char) : List Char :=
  ( "\nYou are a friendly PUPQC student support assistant. Answer the question based on the provided context from official student documents.\n\nGuidelines:\n- Write in a natural, conversational tone like a helpful student assistant\n- NEVER mention page numbers, document names, or technical references\n- Use bullet points (•) for lists, not asterisks (*)\n- If information seems incomplete, acknowledge you're still learning\n- Keep answers clear, friendly, and helpful for students\n- Focus on being genuinely helpful rather than robotic\n\nContext:\n").data
    ++ context
    ++ ( "\n\nQuestion: ").data ++ question
    ++ ( "\n\nPlease provide a helpful, natural answer without any technical references:\n").data

/-- The prompt `query_student_bot` builds for a question over the store. -/
def promptFor (db : Db) (question : List Char) : List Char :=
  buildPrompt (build_context (search_documents db question 5)) question

/-- `SimplifiedRAGSystem.query_student_bot(question, session_id)`.

`generate` is the language-model collaborator (`self.model.generate_content`
followed by `.text`), which may fail; `elapsed_ms` is the wall-clock
duration the code measures around retrieval and generation.  The analytics
write (`_log_conversation`) swallows its own errors and does not affect the
returned dict, so it is not modelled.  The small-talk cascade, retrieval,
empty-retrieval fallback, generation, cleanup and the exception handler are
translated branch for branch. -/
def query_student_bot (db : Db) (generate : List Char → Except (List Char) (List Char))
    (elapsed_ms : Nat) (question : List Char) (session_id : Option (List Char)) :
    QueryOutcome :=
  let question_lower := strip (lower question)
  if greetings.any (fun g => containsSub question_lower g) then
    ⟨greetingAnswer, [], 50, session_id, none⟩
  else if thanks_words.any (fun w => containsSub question_lower w) then
    ⟨thanksAnswer, [], 50, session_id, none⟩
  else if goodbye_words.any (fun w => containsSub question_lower w) then
    ⟨goodbyeAnswer, [], 50, session_id, none⟩
  else if status_questions.any (fun p => containsSub question_lower p) then
    ⟨identityAnswer, [], 50, session_id, none⟩
  else
    let relevant_chunks := search_documents db question 5
    if relevant_chunks.isEmpty then
      ⟨stillLearningAnswer, [], 0, session_id, none⟩
    else
      match generate (buildPrompt (build_context relevant_chunks) question) with
      | Except.error e => ⟨troubleAnswer, [], 0, session_id, some e⟩
      | Except.ok raw =>
        let answer := clean_response raw
        let sources := relevant_chunks.map (fun c => ⟨c.page, c.filename, c.document_id⟩)
        ⟨answer, sources, elapsed_ms, session_id, none⟩

/-! ## The HTTP chat endpoints (main.py) -/

/-- The `ChatResponse` body of the chat endpoints. -/
structure ChatResponseR where
  answer : List Char
  sources : List SourceRef
  response_time_ms : Nat
  session_id : Option (List Char)
deriving DecidableEq, Repr

/-- The apology of `chat_with_student_bot`'s exception handler. -/
def chatErrorAnswer : List Char :=
  ( "I'm sorry, I'm having trouble processing your question right now. Please try again later.").data

/-- `POST /admin/student/test-chat` (`test_student_chat`): `sid` is the
generated `admin_test_{uuid4()}` session id, `result` the dict returned by
`query_student_bot`. -/
def test_student_chat (result : QueryOutcome) (sid : List Char) : ChatResponseR :=
  ⟨clean_bot_response result.answer, [], 0, some sid⟩

/-- `POST /chat/student` (`chat_with_student_bot`): `outcome` is the result
of the `try` block around the RAG call (`Except.error` when it raises),
`request_session_id` the optional id of the request and `sid` the session id
used for the call (`request.session_id or str(uuid.uuid4())`). -/
def chat_with_student_bot (outcome : Except (List Char) QueryOutcome)
    (request_session_id : Option (List Char)) (sid : List Char) : ChatResponseR :=
  match outcome with
  | Except.ok result => ⟨clean_bot_response result.answer, [], 0, some sid⟩
  | Except.error _ => ⟨chatErrorAnswer, [], 0, request_session_id⟩

/-! ## The direct-chat relay (main.py) -/

/-- The status strings `'waiting' | 'active' | 'closed'` of `DirectChat`. -/
inductive ChatStatus where
  | waiting
  | active
  | closed
deriving DecidableEq, Repr

/-- The `sender_type` strings of `DirectMessage`. -/
inductive SenderType where
  | user
  | admin
  | system
deriving DecidableEq, Repr

/-- A `DirectChat` row. -/
structure DirectChatR where
  id : Nat
  session_id : List Char
  status : ChatStatus
  last_activity : Nat
deriving DecidableEq, Repr

/-- A `DirectMessage` row. -/
structure DirectMessageR where
  id : Nat
  chat_id : Nat
  sender_type : SenderType
  message : List Char
  sent_at : Nat
deriving DecidableEq, Repr

/-- The relay's store: chats and messages in store order, plus the
auto-increment counters the store assigns. -/
structure RelayDb where
  chats : List DirectChatR
  messages : List DirectMessageR
  next_chat_id : Nat
  next_message_id : Nat
deriving DecidableEq, Repr

/-- `db.query(DirectChat).filter(DirectChat.id == chat_id).first()`. -/
def findChatById (db : RelayDb) (chat_id : Nat) : Option DirectChatR :=
  db.chats.find? (fun c => c.id == chat_id)

/-- `db.query(DirectChat).filter(DirectChat.session_id == sid).first()`. -/
def findChatBySession (db : RelayDb) (sid : List Char) : Option DirectChatR :=
  db.chats.find? (fun c => c.session_id == sid)

/-- `POST /admin/direct-chats/{chat_id}/messages` (`send_admin_message`):
404 when the chat does not exist; otherwise append an `admin` message, set
the chat's status to `'active'` and update `last_activity`.  `now` stands
for `datetime.utcnow()`. -/
def send_admin_message (db : RelayDb) (chat_id : Nat) (message : List Char)
    (now : Nat) : Except Nat RelayDb :=
  match findChatById db chat_id with
  | none => Except.error 404
  | some _ =>
    Except.ok
      { chats := db.chats.map (fun c =>
          if c.id == chat_id then { c with status := ChatStatus.active, last_activity := now }
          else c),
        messages := db.messages ++ [⟨db.next_message_id, chat_id, SenderType.admin, message, now⟩],
        next_chat_id := db.next_chat_id,
        next_message_id := db.next_message_id + 1 }

/-- `POST /direct-chat/user-message` (`send_user_message`): find the chat by
session id or create one in `'waiting'`; append a `user` message; update
`last_activity` (the status is not changed for an existing chat). -/
def send_user_message (db : RelayDb) (sid : List Char) (message : List Char)
    (now : Nat) : RelayDb :=
  match findChatBySession db sid with
  | some chat =>
    { chats := db.chats.map (fun c =>
        if c.id == chat.id then { c with last_activity := now } else c),
      messages := db.messages ++ [⟨db.next_message_id, chat.id, SenderType.user, message, now⟩],
      next_chat_id := db.next_chat_id,
      next_message_id := db.next_message_id + 1 }
  | none =>
    { chats := db.chats ++ [⟨db.next_chat_id, sid, ChatStatus.waiting, now⟩],
      messages := db.messages ++ [⟨db.next_message_id, db.next_chat_id, SenderType.user, message, now⟩],
      next_chat_id := db.next_chat_id + 1,
      next_message_id := db.next_message_id + 1 }

/-- Insert into an ascending-by-`sent_at` list, after every element of not
larger send time: the step of a stable ascending sort. -/
def insertBySent (m : DirectMessageR) : List DirectMessageR → List DirectMessageR
  | [] => [m]
  | y :: ys => if y.sent_at < m.sent_at then y :: insertBySent m ys else m :: y :: ys

/-- Stable sort by `sent_at` ascending (`order_by(DirectMessage.sent_at.asc())`). -/
def sortBySent : List DirectMessageR → List DirectMessageR
  | [] => []
  | m :: ms => insertBySent m (sortBySent ms)

/-- `POST /direct-chat/get-messages` (`get_user_messages`): the messages of
the session's chat with identifier strictly greater than `last_seen`,
ordered by send time ascending; the empty list when no chat exists for the
session id. -/
def get_user_messages (db : RelayDb) (sid : List Char) (last_seen : Nat) :
    List DirectMessageR :=
  match findChatBySession db sid with
  | none => []
  | some chat =>
    sortBySent (db.messages.filter (fun m => m.chat_id == chat.id && last_seen < m.id))

/-- The synthetic departure notice `close_chat_session` appends. -/
def closeNotice : List Char :=
  ( "User has left the conversation (page refreshed/closed). Chat automatically closed.").data

/-- `POST /direct-chat/close-session` (`close_chat_session`): mark the
session's chat `'closed'`, update `last_activity` and append a `system`
message; a no-op when the chat does not exist. -/
def close_chat_session (db : RelayDb) (sid : List Char) (now : Nat) : RelayDb :=
  match findChatBySession db sid with
  | none => db
  | some chat =>
    { chats := db.chats.map (fun c =>
        if c.id == chat.id then { c with status := ChatStatus.closed, last_activity := now }
        else c),
      messages := db.messages ++ [⟨db.next_message_id, chat.id, SenderType.system, closeNotice, now⟩],
      next_chat_id := db.next_chat_id,
      next_message_id := db.next_message_id + 1 }

/-! ## The ingestion pipeline (`SimplifiedRAGSystem.process_pdf`) -/

/-- A ready document of the student chatbot. -/
def exampleDoc : DocumentR :=
  { id := 10, chatbot_id := 1, filename := [], original_filename := ( "handbook.pdf").data,
    file_size := 0, status := DocumentStatus.ready, page_count := none, chunk_count := none,
    processing_error := none, processed_at := none }

/-- A store with one student bot and two ready chunks, `"b"` first and
`"aa"` second in store order. -/
def exampleDb : Db :=
  { chatbots := [⟨1, ChatbotType.student⟩],
    documents := [exampleDoc],
    document_chunks := [⟨10, 0, ( "b").data, 1, []⟩, ⟨10, 1, ( "aa").data, 1, []⟩],
    next_document_id := 11 }

/-- A store with one ready chunk about enrollment. -/
def enrollDb : Db :=
  { chatbots := [⟨1, ChatbotType.student⟩],
    documents := [exampleDoc],
    document_chunks := [⟨10, 0, ( "enrollment opens march 1").data, 1, []⟩],
    next_document_id := 11 }

/-- A relay store holding one chat whose status is `'closed'`. -/
def closedChatDb : RelayDb :=
  { chats := [⟨1, ( "s1").data, ChatStatus.closed, 0⟩], messages := [],
    next_chat_id := 2, next_message_id := 1 }

/-- A relay store with one waiting chat and messages whose send times are
not aligned with their identifiers, plus a message of another chat. -/
def pollDb : RelayDb :=
  { chats := [⟨1, ( "s1").data, ChatStatus.waiting, 0⟩],
    messages := [⟨7, 1, SenderType.user, [], 30⟩, ⟨6, 1, SenderType.admin, [], 10⟩,
                 ⟨3, 1, SenderType.user, [], 50⟩, ⟨8, 2, SenderType.user, [], 1⟩],
    next_chat_id := 3, next_message_id := 9 }

/-- C1, counterexample: `send_admin_message` on the chat of `closedChatDb` —
whose status is `closed` — neither no-ops nor is rejected: it succeeds and
leaves the chat with status `active`, so `closed` is not terminal. -/
theorem C1_counterexample :
    (findChatById closedChatDb 1).map DirectChatR.status = some ChatStatus.closed ∧
    ((send_admin_message closedChatDb 1 ( "hello").data 5).toOption.bind
      (fun db' => (findChatById db' 1).map DirectChatR.status)) = some ChatStatus.active := by
  decide

/-- C2, counterexample: on the question `"aa aa b"` (the term `aa`
repeated) over `exampleDb`, the code's search result differs from the
result of the claim's described algorithm with distinct terms: the code
counts the duplicated token twice and ranks the `"aa"` chunk first, while
distinct-term scoring ties both chunks at 1 and keeps store order. -/
theorem C2_counterexample :
    search_documents exampleDb ( "aa aa b").data 5 ≠
      search_documents_distinct exampleDb ( "aa aa b").data 5 := by
  decide

/-- C4, counterexample: the cleanup chain is not idempotent.  On
`"pagdocument 3e 5"` the `document N` rewrite splices the text into
`"page 5"`, which only a second run removes: `clean(clean(x)) ≠ clean(x)`. -/
theorem C4_counterexample :
    clean_response (clean_response ( "pagdocument 3e 5").data) ≠
      clean_response ( "pagdocument 3e 5").data := by
  decide

set_option maxRecDepth 4000 in
/-- C5, counterexample: when the model call throws, `query_student_bot`
returns the exception handler's "having trouble processing" apology, not
the canned "still learning about that topic" message the claim states. -/
theorem C5_counterexample :
    (query_student_bot enrollDb (fun _ => Except.error ( "boom").data) 0
        ( "enrollment").data none).answer = troubleAnswer ∧
    troubleAnswer ≠ stillLearningAnswer := by
  decide

/-- C8, counterexample: the input `"--- Page 1 ---"` contains non-whitespace
characters, yet the chunker produces zero chunks (a page-marker line
contributes no chunk text). -/
theorem C8_counterexample :
    create_text_chunks ( "--- Page 1 ---").data ( "doc.pdf").data 500 = [] ∧
    hasNonWS ( "--- Page 1 ---").data = true := by
  decide

/-- C9: both chat endpoints answer with an empty sources list and
`response_time_ms = 0`, whatever the RAG pipeline returned (or raised). -/
theorem C9_http_sources_suppressed (result : QueryOutcome) (sid : List Char)
    (outcome : Except (List Char) QueryOutcome) (rsid : Option (List Char))
    (sid2 : List Char) :
    (test_student_chat result sid).sources = [] ∧
    (test_student_chat result sid).response_time_ms = 0 ∧
    (chat_with_student_bot outcome rsid sid2).sources = [] ∧
    (chat_with_student_bot outcome rsid sid2).response_time_ms = 0 := by
  refine ⟨rfl, rfl, ?_, ?_⟩ <;> cases outcome <;> rfl

/-- Helper: a question in some small-talk phrase set takes the fast path of
`query_student_bot` — the canned answer of the first matching category, empty
sources, the fixed 50 ms placeholder — independently of the store and the
model collaborator. -/
theorem small_talk_reduce (db : Db) (gen : List Char → Except (List Char) (List Char))
    (t : Nat) (q : List Char) (sid : Option (List Char)) (cat : SmallTalk)
    (h : smallTalkCategory q = some cat) :
    query_student_bot db gen t q sid = ⟨cannedAnswer cat, [], 50, sid, none⟩ := by
  unfold smallTalkCategory at h
  unfold query_student_bot
  dsimp only at h ⊢
  split_ifs at h ⊢ with h1 h2 h3 h4 <;>
    first
      | (injection h with h; subst h; rfl)
      | exact absurd h (by simp)

/-- C3: a question matching one of the four small-talk phrase sets (tested
in order greeting, thanks, farewell, identity; first match wins) is answered
with that category's fixed canned text, empty sources and the fixed 50 ms
placeholder, and the result is independent of the document store and of the
model collaborator — neither is consulted. -/
theorem C3_small_talk (db db' : Db)
    (gen gen' : List Char → Except (List Char) (List Char)) (t t' : Nat)
    (q : List Char) (sid : Option (List Char)) (cat : SmallTalk)
    (h : smallTalkCategory q = some cat) :
    query_student_bot db gen t q sid = ⟨cannedAnswer cat, [], 50, sid, none⟩ ∧
    query_student_bot db gen t q sid = query_student_bot db' gen' t' q sid :=
  ⟨small_talk_reduce db gen t q sid cat h,
   (small_talk_reduce db gen t q sid cat h).trans
     (small_talk_reduce db' gen' t' q sid cat h).symm⟩

/-- C3, witness: the question `"hello"` is greeting small-talk and gets the
greeting canned answer. -/
theorem C3_witness :
    smallTalkCategory ( "hello").data = some SmallTalk.greeting ∧
    query_student_bot exampleDb (fun _ => Except.error []) 0 ( "hello").data none =
      ⟨cannedAnswer SmallTalk.greeting, [], 50, none, none⟩ :=
  ⟨by decide,
    (C3_small_talk exampleDb enrollDb (fun _ => Except.error []) (fun _ => Except.error [])
      0 1 ( "hello").data none SmallTalk.greeting (by decide)).1⟩

/-- C10: small-talk matching is raw substring containment: any question
whose lower-cased text contains `"hi"` — also inside another word such as
`"this"` — takes the greeting fast path, with the greeting canned answer,
empty sources and no dependence on the store or the model, even when the
question is academic. -/
theorem C10_substring_small_talk (db db' : Db)
    (gen gen' : List Char → Except (List Char) (List Char)) (t t' : Nat)
    (q : List Char) (sid : Option (List Char))
    (h : containsSub (strip (lower q)) ( "hi").data = true) :
    query_student_bot db gen t q sid = ⟨greetingAnswer, [], 50, sid, none⟩ ∧
    query_student_bot db gen t q sid = query_student_bot db' gen' t' q sid := by
  have hcat : smallTalkCategory q = some SmallTalk.greeting := by
    unfold smallTalkCategory
    dsimp only
    rw [if_pos]
    rw [List.any_eq_true]
    exact ⟨( "hi").data, by decide, h⟩
  exact ⟨small_talk_reduce db gen t q sid SmallTalk.greeting hcat,
    (small_talk_reduce db gen t q sid SmallTalk.greeting hcat).trans
      (small_talk_reduce db' gen' t' q sid SmallTalk.greeting hcat).symm⟩

set_option maxRecDepth 4000 in
/-- C10, witness: the academic question
`"What courses does this program offer"` contains `"hi"` inside `"this"`
and is answered with the greeting canned text over a store holding ready
chunks. -/
theorem C10_witness :
    containsSub (strip (lower ( "What courses does this program offer").data)) ( "hi").data = true ∧
    query_student_bot exampleDb (fun _ => Except.error []) 0
        ( "What courses does this program offer").data none =
      ⟨greetingAnswer, [], 50, none, none⟩ :=
  ⟨by decide,
    (C10_substring_small_talk exampleDb enrollDb (fun _ => Except.error [])
      (fun _ => Except.error []) 0 1 ( "What courses does this program offer").data none
      (by decide)).1⟩

/-- C5, amended: for a non-small-talk question, an empty retrieval result
yields the canned "still learning about that topic" message with empty
sources and zero recorded latency; a model-call failure instead yields the
exception handler's "having trouble processing" apology — likewise with
empty sources, zero latency and a normal return (no failure status), the
error text carried in the extra `error` field. -/
theorem C5_amended (db : Db) (gen : List Char → Except (List Char) (List Char))
    (t : Nat) (q : List Char) (sid : Option (List Char))
    (hq : smallTalkCategory q = none) :
    (search_documents db q 5 = [] →
      query_student_bot db gen t q sid = ⟨stillLearningAnswer, [], 0, sid, none⟩) ∧
    (∀ e, search_documents db q 5 ≠ [] → gen (promptFor db q) = Except.error e →
      query_student_bot db gen t q sid = ⟨troubleAnswer, [], 0, sid, some e⟩) := by
  unfold smallTalkCategory at hq
  dsimp only at hq
  split_ifs at hq with h1 h2 h3 h4 <;> try simp at hq
  constructor
  · intro hempty
    simp [query_student_bot, h1, h2, h3, h4, hempty]
  · intro e hne hgen
    unfold promptFor at hgen
    have hfalse : (search_documents db q 5).isEmpty = false := by
      cases hsd : search_documents db q 5 with
      | nil => exact absurd hsd hne
      | cons a l => rfl
    simp [query_student_bot, h1, h2, h3, h4, hfalse, hgen]

set_option maxRecDepth 4000 in
/-- C5, witness: over `enrollDb` the question `"enrollment"` retrieves a
chunk, and a model failure produces the "having trouble" outcome with empty
sources and zero latency. -/
theorem C5_witness :
    smallTalkCategory ( "enrollment").data = none ∧
    search_documents enrollDb ( "enrollment").data 5 ≠ [] ∧
    query_student_bot enrollDb (fun _ => Except.error ( "boom").data) 7
        ( "enrollment").data none =
      ⟨troubleAnswer, [], 0, none, some ( "boom").data⟩ :=
  ⟨by decide, by decide,
    (C5_amended enrollDb (fun _ => Except.error ( "boom").data) 7 ( "enrollment").data none
      (by decide)).2 ( "boom").data (by decide) rfl⟩

/-- Helper: in a chat list with no repeated identifier (the store's primary
key), two members with the same id are the same row. -/
theorem chats_id_unique {l : List DirectChatR} (h : (l.map DirectChatR.id).Nodup)
    {a b : DirectChatR} (ha : a ∈ l) (hb : b ∈ l) (hid : a.id = b.id) : a = b :=
  List.inj_on_of_nodup_map h ha hb hid

/-- C1, amended: `closed` is terminal under the user-side relay operations,
but not under admin messages: on any existing chat — a closed one included —
`send_admin_message` succeeds and sets the chat's status to `active`
(reopening it), while `send_user_message` and `close_chat_session` never
move a chat out of `closed`.  `hnodup` is the store's primary-key
uniqueness, `hfresh` the freshness of the auto-increment counter. -/
theorem C1_amended (db : RelayDb) (chat_id : Nat) (sid msg umsg : List Char) (now : Nat)
    (hex : findChatById db chat_id ≠ none)
    (hnodup : (db.chats.map DirectChatR.id).Nodup)
    (hfresh : ∀ c ∈ db.chats, c.id ≠ db.next_chat_id) :
    (∃ db', send_admin_message db chat_id msg now = Except.ok db' ∧
      ∀ c ∈ db'.chats, c.id = chat_id → c.status = ChatStatus.active) ∧
    (∀ c0 ∈ db.chats, c0.status = ChatStatus.closed →
      ∀ c ∈ (send_user_message db sid umsg now).chats, c.id = c0.id →
        c.status = ChatStatus.closed) ∧
    (∀ c0 ∈ db.chats, c0.status = ChatStatus.closed →
      ∀ c ∈ (close_chat_session db sid now).chats, c.id = c0.id →
        c.status = ChatStatus.closed) := by
  obtain ⟨chat, hchat⟩ : ∃ chat, findChatById db chat_id = some chat := by
    cases hfind : findChatById db chat_id with
    | none => exact absurd hfind hex
    | some c => exact ⟨c, rfl⟩
  refine ⟨⟨_, by rw [send_admin_message, hchat], ?_⟩, ?_, ?_⟩
  · intro c hc hcid
    simp only [List.mem_map] at hc
    obtain ⟨c1, hc1, rfl⟩ := hc
    by_cases h : c1.id == chat_id
    · simp [h]
    · simp only [h, if_false] at hcid ⊢
      exact absurd (beq_iff_eq.mpr hcid) h
  · intro c0 hc0 hclosed c hc hcid
    unfold send_user_message at hc
    cases hfind : findChatBySession db sid with
    | some chat2 =>
      rw [hfind] at hc
      simp only [List.mem_map] at hc
      obtain ⟨c1, hc1, rfl⟩ := hc
      have hst : (if c1.id == chat2.id then { c1 with last_activity := now } else c1).status
          = c1.status := by
        by_cases h : c1.id == chat2.id <;> simp [h]
      have hid : c1.id = c0.id := by
        by_cases h : c1.id == chat2.id <;> simp [h] at hcid <;> exact hcid
      rw [hst, chats_id_unique hnodup hc1 hc0 hid]
      exact hclosed
    | none =>
      rw [hfind] at hc
      simp only [List.mem_append, List.mem_singleton] at hc
      cases hc with
      | inl hmem => rw [chats_id_unique hnodup hmem hc0 hcid]; exact hclosed
      | inr hnew =>
        subst hnew
        exact absurd (show c0.id = db.next_chat_id from hcid.symm) (hfresh c0 hc0)
  · intro c0 hc0 hclosed c hc hcid
    unfold close_chat_session at hc
    cases hfind : findChatBySession db sid with
    | some chat2 =>
      rw [hfind] at hc
      simp only [List.mem_map] at hc
      obtain ⟨c1, hc1, rfl⟩ := hc
      by_cases h : c1.id == chat2.id
      · simp [h]
      · simp only [h, if_false] at hcid ⊢
        rw [chats_id_unique hnodup hc1 hc0 hcid]
        exact hclosed
    | none =>
      rw [hfind] at hc
      rw [chats_id_unique hnodup hc hc0 hcid]
      exact hclosed

/-- C1, witness: on `closedChatDb` (one chat, status `closed`) the admin
message succeeds and the chat ends `active`. -/
theorem C1_witness :
    (findChatById closedChatDb 1 ≠ none) ∧
    (∃ db', send_admin_message closedChatDb 1 ( "hello").data 5 = Except.ok db' ∧
      ∀ c ∈ db'.chats, c.id = 1 → c.status = ChatStatus.active) :=
  ⟨by decide,
    (C1_amended closedChatDb 1 ( "s1").data ( "hello").data ( "x").data 5
      (by decide) (by decide) (by decide)).1⟩


/-- Helper: inserting into the send-time sort permutes. -/
theorem insertBySent_perm (m : DirectMessageR) (l : List DirectMessageR) :
    List.Perm (insertBySent m l) (m :: l) := by
  induction l with
  | nil => exact List.Perm.refl _
  | cons y ys ih =>
    rw [insertBySent]
    by_cases h : y.sent_at < m.sent_at
    · rw [if_pos h]
      exact (ih.cons y).trans (List.Perm.swap m y ys)
    · rw [if_neg h]

/-- Helper: the send-time sort is a permutation. -/
theorem sortBySent_perm (l : List DirectMessageR) : List.Perm (sortBySent l) l := by
  induction l with
  | nil => exact List.Perm.refl _
  | cons m ms ih => exact (insertBySent_perm m (sortBySent ms)).trans (ih.cons m)

/-- Helper: insertion preserves ascending send time. -/
theorem insertBySent_sorted (m : DirectMessageR) (l : List DirectMessageR)
    (h : l.Pairwise (fun a b => a.sent_at ≤ b.sent_at)) :
    (insertBySent m l).Pairwise (fun a b => a.sent_at ≤ b.sent_at) := by
  induction l with
  | nil => simp [insertBySent]
  | cons y ys ih =>
    rw [insertBySent]
    rcases List.pairwise_cons.mp h with ⟨hy, hys⟩
    by_cases hc : y.sent_at < m.sent_at
    · rw [if_pos hc]
      refine List.pairwise_cons.mpr ⟨?_, ih hys⟩
      intro b hb
      rcases List.mem_cons.mp ((insertBySent_perm m ys).mem_iff.mp hb) with hbm | hbys
      · exact hbm ▸ Nat.le_of_lt hc
      · exact hy b hbys
    · rw [if_neg hc]
      refine List.pairwise_cons.mpr ⟨?_, h⟩
      intro b hb
      have hm : m.sent_at ≤ y.sent_at := Nat.le_of_not_lt hc
      rcases List.mem_cons.mp hb with hbm | hbys
      · exact hbm ▸ hm
      · exact Nat.le_trans hm (hy b hbys)

/-- Helper: the send-time sort is ascending. -/
theorem sortBySent_sorted (l : List DirectMessageR) :
    (sortBySent l).Pairwise (fun a b => a.sent_at ≤ b.sent_at) := by
  induction l with
  | nil => simp [sortBySent]
  | cons m ms ih => exact insertBySent_sorted m (sortBySent ms) ih

/-- C6: polling returns exactly the messages of the session's chat whose
identifier is strictly greater than the watermark (stated as a permutation
of the filtered message table), ordered by send time ascending, and the
empty list — not an error — when no chat exists for the session id. -/
theorem C6_poll (db : RelayDb) (sid : List Char) (last_seen : Nat) :
    (findChatBySession db sid = none → get_user_messages db sid last_seen = []) ∧
    (∀ chat, findChatBySession db sid = some chat →
      List.Perm (get_user_messages db sid last_seen)
        (db.messages.filter (fun m => m.chat_id == chat.id && last_seen < m.id)) ∧
      (get_user_messages db sid last_seen).Pairwise (fun a b => a.sent_at ≤ b.sent_at)) := by
  constructor
  · intro h
    unfold get_user_messages
    rw [h]
  · intro chat h
    unfold get_user_messages
    rw [h]
    exact ⟨sortBySent_perm _, sortBySent_sorted _⟩

/-- C6, witness: over `pollDb` with watermark 4, messages 6 and 7 of chat 1
are returned (message 3 is below the watermark, message 8 belongs to
another chat), ordered by send time. -/
theorem C6_witness :
    findChatBySession pollDb ( "s1").data = some ⟨1, ( "s1").data, ChatStatus.waiting, 0⟩ ∧
    (List.Perm (get_user_messages pollDb ( "s1").data 4)
        (pollDb.messages.filter (fun m => m.chat_id == (1 : Nat) && 4 < m.id)) ∧
      (get_user_messages pollDb ( "s1").data 4).Pairwise (fun a b => a.sent_at ≤ b.sent_at)) :=
  ⟨by decide,
    (C6_poll pollDb ( "s1").data 4).2 ⟨1, ( "s1").data, ChatStatus.waiting, 0⟩ (by decide)⟩


/-- Helper: inserting into the score sort permutes. -/
theorem insertDesc_perm (x : ScoredChunk) (l : List ScoredChunk) :
    List.Perm (insertDesc x l) (x :: l) := by
  induction l with
  | nil => exact List.Perm.refl _
  | cons y ys ih =>
    rw [insertDesc]
    by_cases h : x.score < y.score
    · rw [if_pos h]
      exact (ih.cons y).trans (List.Perm.swap x y ys)
    · rw [if_neg h]

/-- Helper: the score sort is a permutation. -/
theorem sortDesc_perm (l : List ScoredChunk) : List.Perm (sortDesc l) l := by
  induction l with
  | nil => exact List.Perm.refl _
  | cons x xs ih => exact (insertDesc_perm x (sortDesc xs)).trans (ih.cons x)

/-- Helper: insertion preserves descending scores. -/
theorem insertDesc_sorted (x : ScoredChunk) (l : List ScoredChunk)
    (h : l.Pairwise (fun a b => b.score ≤ a.score)) :
    (insertDesc x l).Pairwise (fun a b => b.score ≤ a.score) := by
  induction l with
  | nil => simp [insertDesc]
  | cons y ys ih =>
    rw [insertDesc]
    rcases List.pairwise_cons.mp h with ⟨hy, hys⟩
    by_cases hc : x.score < y.score
    · rw [if_pos hc]
      refine List.pairwise_cons.mpr ⟨?_, ih hys⟩
      intro b hb
      rcases List.mem_cons.mp ((insertDesc_perm x ys).mem_iff.mp hb) with hbm | hbys
      · exact hbm ▸ Nat.le_of_lt hc
      · exact hy b hbys
    · rw [if_neg hc]
      refine List.pairwise_cons.mpr ⟨?_, h⟩
      intro b hb
      have hyx : y.score ≤ x.score := Nat.le_of_not_lt hc
      rcases List.mem_cons.mp hb with hbm | hbys
      · exact hbm ▸ hyx
      · exact Nat.le_trans (hy b hbys) hyx

/-- Helper: the score sort is descending. -/
theorem sortDesc_sorted (l : List ScoredChunk) :
    (sortDesc l).Pairwise (fun a b => b.score ≤ a.score) := by
  induction l with
  | nil => simp [sortDesc]
  | cons x xs ih => exact insertDesc_sorted x (sortDesc xs) ih

/-- Helper, stability of the insertion step: the elements of any fixed
score keep their relative order (the inserted element is placed before
the equal-scored ones already present, matching its earlier store
position). -/
theorem insertDesc_filter (x : ScoredChunk) (l : List ScoredChunk) (k : Nat) :
    (insertDesc x l).filter (fun c => c.score == k)
      = (x :: l).filter (fun c => c.score == k) := by
  induction l with
  | nil => rfl
  | cons y ys ih =>
    rw [insertDesc]
    by_cases h : x.score < y.score
    · rw [if_pos h]
      by_cases hy : (y.score == k) = true
      · have hx : (x.score == k) = false := by
          have hyk : y.score = k := beq_iff_eq.mp hy
          exact beq_eq_false_iff_ne.mpr (Nat.ne_of_lt (hyk ▸ h))
        simp [List.filter_cons, hy, hx, ih]
      · simp only [Bool.not_eq_true] at hy
        simp [List.filter_cons, hy, ih]
    · rw [if_neg h]

/-- Helper, stability of the score sort: for every score value the sorted
list lists the elements of that score in store order. -/
theorem sortDesc_filter (l : List ScoredChunk) (k : Nat) :
    (sortDesc l).filter (fun c => c.score == k) = l.filter (fun c => c.score == k) := by
  induction l with
  | nil => rfl
  | cons x xs ih =>
    rw [sortDesc, insertDesc_filter, List.filter_cons, List.filter_cons, ih]

/-- C2, amended: the lexical search lowercases and whitespace-tokenizes the
question and scores each ready chunk by the number of question tokens
(counted with multiplicity when the question repeats a term — not the
number of distinct terms) that occur as substrings of the lowercased chunk
text, a token counted once even if it occurs several times in the chunk;
chunks with score 0 are discarded (`scoredChunks`), the rest are sorted
descending by score with ties in store iteration order, and at most `limit`
results are returned. -/
theorem C2_amended (db : Db) (q : List Char) (limit : Nat) (bot : ChatbotR)
    (hbot : findStudentBot db = some bot) :
    ∃ full : List ScoredChunk,
      search_documents db q limit = full.take limit ∧
      List.Perm full (scoredChunks db bot (splitWS (lower q))) ∧
      full.Pairwise (fun a b => b.score ≤ a.score) ∧
      (∀ k, full.filter (fun c => c.score == k)
        = (scoredChunks db bot (splitWS (lower q))).filter (fun c => c.score == k)) := by
  refine ⟨sortDesc (scoredChunks db bot (splitWS (lower q))), ?_, sortDesc_perm _,
    sortDesc_sorted _, fun k => sortDesc_filter _ k⟩
  unfold search_documents
  rw [hbot]

/-- C2, witness: the search over `exampleDb` for `"aa aa b"`. -/
theorem C2_witness :
    findStudentBot exampleDb = some ⟨1, ChatbotType.student⟩ ∧
    ∃ full : List ScoredChunk,
      search_documents exampleDb ( "aa aa b").data 5 = full.take 5 ∧
      List.Perm full (scoredChunks exampleDb ⟨1, ChatbotType.student⟩
        (splitWS (lower ( "aa aa b").data))) ∧
      full.Pairwise (fun a b => b.score ≤ a.score) ∧
      (∀ k, full.filter (fun c => c.score == k)
        = (scoredChunks exampleDb ⟨1, ChatbotType.student⟩
            (splitWS (lower ( "aa aa b").data))).filter (fun c => c.score == k)) :=
  ⟨by decide,
    C2_amended exampleDb ( "aa aa b").data 5 ⟨1, ChatbotType.student⟩ (by decide)⟩


/-- Helper: each loop step of the chunker preserves "a chunk was already
emitted, or the buffer holds a non-whitespace character". -/
theorem chunkLine_preserves (fn : List Char) (cs : Nat) (st : ChunkState) (line : List Char)
    (h : st.chunks ≠ [] ∨ hasNonWS st.current_chunk = true) :
    (chunkLine fn cs st line).chunks ≠ [] ∨
      hasNonWS (chunkLine fn cs st line).current_chunk = true := by
  unfold chunkLine
  by_cases hm : pageMarker.isPrefixOf (strip line) = true
  · simp only [hm, if_true]
    by_cases hc : hasNonWS st.current_chunk = true
    · simp only [hc, if_true]
      left
      simp
    · simp only [hc, if_false]
      left
      rcases h with h1 | h2
      · exact h1
      · exact absurd h2 hc
  · simp only [Bool.not_eq_true] at hm
    simp only [hm, Bool.false_eq_true, if_false]
    by_cases hsz : cs < (st.current_chunk ++ line ++ [ '\n']).length
    · simp only [hsz, if_true]
      left
      simp
    · simp only [hsz, if_false]
      rcases h with h1 | h2
      · exact Or.inl h1
      · right
        simp only [hasNonWS, List.any_append] at h2 ⊢
        rw [h2]
        rfl

/-- Helper: a line that is neither whitespace-only nor a page marker
establishes the invariant: it is appended to the buffer (or immediately
flushed as a chunk). -/
theorem chunkLine_good (fn : List Char) (cs : Nat) (st : ChunkState) (line : List Char)
    (hnws : hasNonWS line = true)
    (hnm : pageMarker.isPrefixOf (strip line) = false) :
    (chunkLine fn cs st line).chunks ≠ [] ∨
      hasNonWS (chunkLine fn cs st line).current_chunk = true := by
  unfold chunkLine
  simp only [hnm, Bool.false_eq_true, if_false]
  by_cases hsz : cs < (st.current_chunk ++ line ++ [ '\n']).length
  · simp only [hsz, if_true]
    left
    simp
  · simp only [hsz, if_false]
    right
    simp only [hasNonWS, List.any_append] at hnws ⊢
    rw [hnws]
    simp

/-- Helper: the invariant survives the rest of the loop. -/
theorem chunk_fold_preserves (fn : List Char) (cs : Nat) (lines : List (List Char))
    (st : ChunkState)
    (h : st.chunks ≠ [] ∨ hasNonWS st.current_chunk = true) :
    (List.foldl (chunkLine fn cs) st lines).chunks ≠ [] ∨
      hasNonWS (List.foldl (chunkLine fn cs) st lines).current_chunk = true := by
  induction lines generalizing st with
  | nil => exact h
  | cons l ls ih => exact ih _ (chunkLine_preserves fn cs st l h)

/-- C8, amended: the chunker produces at least one chunk for every input
containing a line that is neither whitespace-only nor a page-marker line;
equivalently, an empty chunk sequence arises only when every line is
whitespace or a `--- Page N ---` marker (such an input can be
non-whitespace, as the counterexample shows). -/
theorem C8_amended (text filename : List Char) (chunk_size : Nat)
    (h : ∃ line ∈ splitChar '\n' text,
      hasNonWS line = true ∧ pageMarker.isPrefixOf (strip line) = false) :
    create_text_chunks text filename chunk_size ≠ [] := by
  obtain ⟨line, hmem, hnws, hnm⟩ := h
  obtain ⟨l1, l2, hsplit⟩ := List.append_of_mem hmem
  unfold create_text_chunks
  dsimp only
  rw [hsplit, List.foldl_append, List.foldl_cons]
  have hP := chunk_fold_preserves filename chunk_size l2 _
    (chunkLine_good filename chunk_size
      (List.foldl (chunkLine filename chunk_size) ⟨[], [], 1⟩ l1) line hnws hnm)
  rcases hP with hne | hc
  · by_cases hfin : hasNonWS (List.foldl (chunkLine filename chunk_size)
        (chunkLine filename chunk_size
          (List.foldl (chunkLine filename chunk_size) ⟨[], [], 1⟩ l1) line) l2).current_chunk = true
    · simp [hfin]
    · simp only [Bool.not_eq_true] at hfin
      simp [hfin, hne]
  · simp [hc]

/-- C8, witness: `"hello world"` is a non-marker, non-whitespace line and
yields a chunk. -/
theorem C8_witness :
    (∃ line ∈ splitChar '\n' ( "hello world").data,
      hasNonWS line = true ∧ pageMarker.isPrefixOf (strip line) = false) ∧
    create_text_chunks ( "hello world").data ( "f.pdf").data 500 ≠ [] :=
  ⟨by decide, C8_amended ( "hello world").data ( "f.pdf").data 500 (by decide)⟩


/-- Helper: dropping the matched prefix length is `dropWhile`. -/
theorem drop_takeWhile_length (p : Char → Bool) (l : List Char) :
    l.drop ((l.takeWhile p).length) = l.dropWhile p := by
  induction l with
  | nil => rfl
  | cons a r ih =>
    by_cases h : p a
    · simp [List.takeWhile_cons, List.dropWhile_cons, h, ih]
    · simp [List.takeWhile_cons, List.dropWhile_cons, h]

/-- Helper: the scan of the empty text is empty. -/
theorem gsubF_nil (m : List Char → Option Nat) (repl : List Char) (fuel : Nat) :
    gsubF m repl fuel [] = [] := by
  cases fuel <;> rfl

/-- Helper: every character of a `gsubF` output comes from the replacement
or from the input. -/
theorem gsubF_mem (m : List Char → Option Nat) (repl : List Char) :
    ∀ (fuel : Nat) (s : List Char) (c : Char),
      c ∈ gsubF m repl fuel s → c ∈ repl ∨ c ∈ s := by
  intro fuel
  induction fuel with
  | zero => exact fun s c h => Or.inr h
  | succ n ih =>
    intro s c h
    match s with
    | [] => simp [gsubF] at h
    | a :: rest =>
      rw [gsubF] at h
      cases hm : m (a :: rest) with
      | none =>
        rw [hm] at h
        rcases List.mem_cons.mp h with rfl | h2
        · exact Or.inr (List.mem_cons_self _ _)
        · rcases ih rest c h2 with h3 | h3
          · exact Or.inl h3
          · exact Or.inr (List.mem_cons_of_mem _ h3)
      | some k =>
        rw [hm] at h
        cases k with
        | zero =>
          rcases List.mem_cons.mp h with rfl | h2
          · exact Or.inr (List.mem_cons_self _ _)
          · rcases ih rest c h2 with h3 | h3
            · exact Or.inl h3
            · exact Or.inr (List.mem_cons_of_mem _ h3)
        | succ j =>
          rcases List.mem_append.mp h with h2 | h2
          · exact Or.inl h2
          · rcases ih _ c h2 with h3 | h3
            · exact Or.inl h3
            · exact Or.inr (List.mem_of_mem_drop h3)

/-- Helper: the `\*\s*` pattern at an asterisk consumes it and the
following whitespace. -/
theorem toN_mBullet_star (rest : List Char) :
    toN mBullet ('*' :: rest) = some ((rest.takeWhile isSpace).length + 1) := by
  simp [toN, mBullet, mseq, mchar, mwsM, Nat.add_comm]

/-- Helper: the `\*\s*` pattern fails off an asterisk. -/
theorem toN_mBullet_ne {a : Char} (rest : List Char) (ha : ¬(a = '*')) :
    toN mBullet (a :: rest) = none := by
  simp [toN, mBullet, mseq, mchar, ha]

/-- Helper: after the bullet rewrite no asterisk remains. -/
theorem gsubF_bullet_no_star :
    ∀ (fuel : Nat) (s : List Char), s.length ≤ fuel →
      '*' ∉ gsubF (toN mBullet) ( "• ").data fuel s := by
  intro fuel
  induction fuel with
  | zero =>
    intro s hs
    have hnil : s = [] := List.eq_nil_of_length_eq_zero (Nat.le_zero.mp hs)
    subst hnil
    simp [gsubF]
  | succ n ih =>
    intro s hs
    match s with
    | [] => simp [gsubF]
    | a :: rest =>
      by_cases ha : a = '*'
      · subst ha
        rw [gsubF, toN_mBullet_star]
        intro hmem
        rcases List.mem_append.mp hmem with h2 | h2
        · simp at h2
        · rw [List.drop_succ_cons, drop_takeWhile_length] at h2
          have hlen : (rest.dropWhile isSpace).length ≤ n := by
            have h3 := (List.dropWhile_sublist (l := rest) isSpace).length_le
            simp only [List.length_cons] at hs
            omega
          exact ih _ hlen h2
      · rw [gsubF, toN_mBullet_ne rest ha]
        intro hmem
        rcases List.mem_cons.mp hmem with h2 | h2
        · exact ha h2.symm
        · have hlen : rest.length ≤ n := by
            simp only [List.length_cons] at hs
            omega
          exact ih rest hlen h2

/-- Helper: the bullet rewrite is the identity on asterisk-free text. -/
theorem gsubF_bullet_fix (repl : List Char) :
    ∀ (fuel : Nat) (s : List Char), s.length ≤ fuel → (∀ c ∈ s, ¬(c = '*')) →
      gsubF (toN mBullet) repl fuel s = s := by
  intro fuel
  induction fuel with
  | zero =>
    intro s hs _
    have hnil : s = [] := List.eq_nil_of_length_eq_zero (Nat.le_zero.mp hs)
    subst hnil
    rfl
  | succ n ih =>
    intro s hs hstar
    match s with
    | [] => rfl
    | a :: rest =>
      have ha : ¬(a = '*') := hstar a (List.mem_cons_self _ _)
      rw [gsubF, toN_mBullet_ne rest ha]
      have hlen : rest.length ≤ n := by
        simp only [List.length_cons] at hs
        omega
      rw [ih rest hlen (fun c hc => hstar c (List.mem_cons_of_mem _ hc))]

/-- Helper: `\s+` fails at a non-whitespace character. -/
theorem toN_mws1_ne {a : Char} (rest : List Char) (ha : isSpace a = false) :
    toN mws1 (a :: rest) = none := by
  simp [toN, mws1, List.takeWhile_cons, ha]

/-- Helper: `\s+` at a whitespace character consumes the whole run. -/
theorem toN_mws1_space {a : Char} (rest : List Char) (ha : isSpace a = true) :
    toN mws1 (a :: rest) = some ((rest.takeWhile isSpace).length + 1) := by
  simp [toN, mws1, List.takeWhile_cons, ha]

/-- Helper: one step of the whitespace collapse at a whitespace head. -/
theorem gsubF_ws_space_step (a : Char) (rest : List Char) (ha : isSpace a = true) (n : Nat) :
    gsubF (toN mws1) [' '] (n + 1) (a :: rest)
      = [' '] ++ gsubF (toN mws1) [' '] n (rest.dropWhile isSpace) := by
  rw [gsubF, toN_mws1_space rest ha]
  dsimp only
  rw [List.drop_succ_cons, drop_takeWhile_length]

/-- Helper: one step of the whitespace collapse at a non-whitespace head. -/
theorem gsubF_ws_ne_step (a : Char) (rest : List Char) (ha : isSpace a = false) (n : Nat) :
    gsubF (toN mws1) [' '] (n + 1) (a :: rest) = a :: gsubF (toN mws1) [' '] n rest := by
  rw [gsubF, toN_mws1_ne rest ha]

/-- Helper: the collapse keeps a non-whitespace head. -/
theorem gsubF_ws_head (fuel : Nat) (d : Char) (w : List Char) (hd : isSpace d = false) :
    (gsubF (toN mws1) [' '] fuel (d :: w)).head? = some d := by
  cases fuel with
  | zero => rfl
  | succ n =>
    rw [gsubF_ws_ne_step d w hd n]
    rfl

/-- Helper: after the whitespace collapse, every whitespace character is a
single space and no two adjacent characters are both whitespace. -/
theorem gsubF_ws_norm :
    ∀ (fuel : Nat) (s : List Char), s.length ≤ fuel →
      (∀ c ∈ gsubF (toN mws1) [' '] fuel s, isSpace c = true → c = ' ') ∧
      (gsubF (toN mws1) [' '] fuel s).Chain'
        (fun a b => ¬(isSpace a = true ∧ isSpace b = true)) := by
  intro fuel
  induction fuel with
  | zero =>
    intro s hs
    have hnil : s = [] := List.eq_nil_of_length_eq_zero (Nat.le_zero.mp hs)
    subst hnil
    exact ⟨by simp [gsubF], by simp [gsubF]⟩
  | succ n ih =>
    intro s hs
    match s with
    | [] => exact ⟨by simp [gsubF], by simp [gsubF]⟩
    | a :: rest =>
      by_cases ha : isSpace a = true
      · rw [gsubF_ws_space_step a rest ha n]
        have hlen : (rest.dropWhile isSpace).length ≤ n := by
          have h3 := (List.dropWhile_sublist (l := rest) isSpace).length_le
          simp only [List.length_cons] at hs
          omega
        obtain ⟨ihc, ihch⟩ := ih (rest.dropWhile isSpace) hlen
        constructor
        · intro c hc
          rcases List.mem_cons.mp (List.singleton_append (l := _) ▸ hc) with rfl | hc2
          · exact fun _ => rfl
          · exact fun hsp => ihc c hc2 hsp
        · rw [List.singleton_append, List.chain'_cons']
          refine ⟨?_, ihch⟩
          intro b hb
          cases hu : rest.dropWhile isSpace with
          | nil =>
            rw [hu, gsubF_nil] at hb
            simp at hb
          | cons d w =>
            have hd : isSpace d = false := by
              have hh := List.head?_dropWhile_not isSpace rest
              rw [hu] at hh
              simpa using hh
            rw [hu, gsubF_ws_head n d w hd] at hb
            have hb' : d = b := by simpa using hb
            subst hb'
            intro hcontra
            rw [hd] at hcontra
            exact Bool.false_ne_true hcontra.2
      · have ha' : isSpace a = false := by simpa using ha
        rw [gsubF_ws_ne_step a rest ha' n]
        have hlen : rest.length ≤ n := by
          simp only [List.length_cons] at hs
          omega
        obtain ⟨ihc, ihch⟩ := ih rest hlen
        constructor
        · intro c hc hsp
          rcases List.mem_cons.mp hc with rfl | hc2
          · rw [ha'] at hsp
            exact absurd hsp Bool.false_ne_true
          · exact ihc c hc2 hsp
        · rw [List.chain'_cons']
          refine ⟨?_, ihch⟩
          intro b _ hcontra
          rw [ha'] at hcontra
          exact Bool.false_ne_true hcontra.1

/-- Helper: a text whose head is not whitespace is its own `dropWhile`. -/
theorem takeWhile_nil_dropWhile_self {rest : List Char}
    (htk : rest.takeWhile isSpace = []) : rest.dropWhile isSpace = rest := by
  cases hr : rest with
  | nil => rfl
  | cons d w =>
    rw [hr] at htk
    by_cases hd : isSpace d = true
    · rw [List.takeWhile_cons, if_pos hd] at htk
      exact absurd htk (List.cons_ne_nil _ _)
    · have hd' : isSpace d = false := by simpa using hd
      simp [List.dropWhile_cons, hd']

/-- Helper: the whitespace collapse is the identity on normalised text. -/
theorem gsubF_ws_fix :
    ∀ (fuel : Nat) (s : List Char), s.length ≤ fuel →
      (∀ c ∈ s, isSpace c = true → c = ' ') →
      s.Chain' (fun a b => ¬(isSpace a = true ∧ isSpace b = true)) →
      gsubF (toN mws1) [' '] fuel s = s := by
  intro fuel
  induction fuel with
  | zero =>
    intro s _ _ _
    rfl
  | succ n ih =>
    intro s hs hchars hchain
    match s with
    | [] => rfl
    | a :: rest =>
      have hlen : rest.length ≤ n := by
        simp only [List.length_cons] at hs
        omega
      have htail : rest.Chain' (fun a b => ¬(isSpace a = true ∧ isSpace b = true)) :=
        hchain.tail
      have hcharst : ∀ c ∈ rest, isSpace c = true → c = ' ' :=
        fun c hc => hchars c (List.mem_cons_of_mem _ hc)
      by_cases ha : isSpace a = true
      · have ha' : a = ' ' := hchars a (List.mem_cons_self _ _) ha
        have htk : rest.takeWhile isSpace = [] := by
          cases hr : rest with
          | nil => rfl
          | cons d w =>
            have h1 := (List.chain'_cons'.mp (hr ▸ hchain)).1 d rfl
            have hd : isSpace d = false := by
              by_contra hcon
              simp only [Bool.not_eq_false] at hcon
              exact h1 ⟨ha, hcon⟩
            simp [List.takeWhile_cons, hd]
        rw [gsubF_ws_space_step a rest ha n, takeWhile_nil_dropWhile_self htk,
          ih rest hlen hcharst htail, List.singleton_append, ha']
      · have ha' : isSpace a = false := by simpa using ha
        rw [gsubF_ws_ne_step a rest ha' n, ih rest hlen hcharst htail]

/-- Helper: `strip` is `rdropWhile` after `dropWhile`. -/
theorem strip_eq_rdropWhile (s : List Char) :
    strip s = List.rdropWhile isSpace (s.dropWhile isSpace) := rfl

/-- Helper: the stripped text is an infix of the original. -/
theorem strip_infix_self (s : List Char) : strip s <:+: s := by
  rw [strip_eq_rdropWhile]
  exact (List.rdropWhile_prefix isSpace _).isInfix.trans
    (List.dropWhile_suffix isSpace).isInfix

/-- Helper: characters of the stripped text come from the original. -/
theorem strip_mem {s : List Char} {c : Char} (h : c ∈ strip s) : c ∈ s :=
  (strip_infix_self s).sublist.subset h

/-- Helper: a chain condition survives stripping. -/
theorem strip_chain {s : List Char} {R : Char → Char → Prop} (h : s.Chain' R) :
    (strip s).Chain' R :=
  h.infix (strip_infix_self s)

/-- Helper: `strip` is idempotent. -/
theorem strip_idem (s : List Char) : strip (strip s) = strip s := by
  rw [strip_eq_rdropWhile, strip_eq_rdropWhile]
  have hA : List.dropWhile isSpace (List.rdropWhile isSpace (List.dropWhile isSpace s))
      = List.rdropWhile isSpace (List.dropWhile isSpace s) := by
    cases hv : List.rdropWhile isSpace (List.dropWhile isSpace s) with
    | nil => rfl
    | cons c w =>
      obtain ⟨t, ht⟩ := List.rdropWhile_prefix isSpace (List.dropWhile isSpace s)
      rw [hv] at ht
      have hc : isSpace c = false := by
        have hh := List.head?_dropWhile_not isSpace s
        rw [← ht] at hh
        simpa using hh
      simp [List.dropWhile_cons, hc]
  rw [hA, List.rdropWhile_idempotent]

/-- Helper: `_clean_response` written as the explicit composition of its
stages. -/
theorem clean_response_eq (y : List Char) :
    clean_response y = strip (gsub (toN mws1) ( " ").data
      (gsub (toN mBullet) ( "• ").data (applyRefRewrites y))) := rfl

/-- Helper: the bullet rewrite fixes asterisk-free text. -/
theorem bullet_fix {s : List Char} (h : ∀ c ∈ s, ¬(c = '*')) :
    gsub (toN mBullet) ( "• ").data s = s := by
  simp only [gsub]
  exact gsubF_bullet_fix _ s.length s (Nat.le_refl _) h

/-- Helper: the whitespace rewrite fixes normalised text. -/
theorem ws_fix {s : List Char} (h1 : ∀ c ∈ s, isSpace c = true → c = ' ')
    (h2 : s.Chain' (fun a b => ¬(isSpace a = true ∧ isSpace b = true))) :
    gsub (toN mws1) ( " ").data s = s := by
  simp only [gsub, show ( " ").data = [' '] from rfl]
  exact gsubF_ws_fix s.length s (Nat.le_refl _) h1 h2

/-- Helper: a cleaned answer contains no asterisk. -/
theorem clean_no_star (x : List Char) : ∀ c ∈ clean_response x, ¬(c = '*') := by
  intro c hc heq
  subst heq
  rw [clean_response_eq] at hc
  have hc2 := strip_mem hc
  rw [gsub, show ( " ").data = [' '] from rfl] at hc2
  rcases gsubF_mem _ _ _ _ _ hc2 with h1 | h2
  · simp at h1
  · exact gsubF_bullet_no_star _ _ (Nat.le_refl _) h2

/-- Helper: in a cleaned answer every whitespace character is a space. -/
theorem clean_chars (x : List Char) :
    ∀ c ∈ clean_response x, isSpace c = true → c = ' ' := by
  intro c hc
  rw [clean_response_eq] at hc
  have hc2 := strip_mem hc
  rw [gsub, show ( " ").data = [' '] from rfl] at hc2
  exact (gsubF_ws_norm _ _ (Nat.le_refl _)).1 c hc2

/-- Helper: a cleaned answer has no two adjacent whitespace characters. -/
theorem clean_chain (x : List Char) :
    (clean_response x).Chain' (fun a b => ¬(isSpace a = true ∧ isSpace b = true)) := by
  rw [clean_response_eq, gsub, show ( " ").data = [' '] from rfl]
  exact strip_chain ((gsubF_ws_norm _ _ (Nat.le_refl _)).2)

/-- Helper: a cleaned answer is already stripped. -/
theorem clean_strip_fix (x : List Char) : strip (clean_response x) = clean_response x := by
  rw [clean_response_eq]
  exact strip_idem _

/-- C4, amended: the cleanup chain is idempotent on every text whose
cleaned form is a fixed point of the four reference-stripping rewrites —
in particular whenever the first pass leaves no `page/pages/document/
section N` pattern behind (the bullet conversion, whitespace collapse and
trim are always idempotent); it is not idempotent in general, because a
removal can splice the surrounding text into a new reference, which only
the second pass removes. -/
theorem C4_amended (x : List Char)
    (h : applyRefRewrites (clean_response x) = clean_response x) :
    clean_response (clean_response x) = clean_response x := by
  rw [clean_response_eq (clean_response x), h, bullet_fix (clean_no_star x),
    ws_fix (clean_chars x) (clean_chain x), clean_strip_fix x]

/-- C4, witness: on `"Hello  *world"` the cleaned text
`"Hello • world"` holds no reference pattern, and re-cleaning it is a
no-op. -/
theorem C4_witness :
    applyRefRewrites (clean_response ( "Hello  *world").data)
        = clean_response ( "Hello  *world").data ∧
    clean_response (clean_response ( "Hello  *world").data)
        = clean_response ( "Hello  *world").data :=
  ⟨by decide, C4_amended ( "Hello  *world").data (by decide)⟩

end PUPQC
